import Mathlib

/-!
Shallow embedding of `src/ContentType.py`: a batch script that enriches
spreadsheet rows with content fetched from an HTTP API.  Cells are modelled
as an inductive value type, the sheet as a header row plus a list of data
rows, the HTTP layer as an oracle mapping each (id, row) pair to the result
that `requests.get` produced for it, and the per-row loop of `main` as an
explicit state-passing function returning `Except` (an uncaught Python
exception aborts the loop).  Console prints are abstracted to a list of log
events (their exact text is irrelevant to the behaviour under study).
-/

namespace ContentType

/-- A spreadsheet cell value: `empty` is openpyxl's `None`, `str` a string
cell, `intv` an integer cell. Float/bool cells are not modelled (no claim
depends on them). -/
inductive CellVal : Type where
  | empty : CellVal
  | str : String → CellVal
  | intv : Int → CellVal
deriving DecidableEq, Repr

/-- A header-row cell: its value and whether its font is bold. -/
structure Cell : Type where
  value : CellVal
  bold : Bool
deriving DecidableEq, Repr

/-- A sheet: header row (row 1) and data rows (rows 2, 3, ...). -/
structure Sheet : Type where
  header : List Cell
  rows : List (List CellVal)
deriving DecidableEq, Repr

/-- Read a 0-based position of a list, defaulting to `d` past the end
(openpyxl materialises missing cells as empty). -/
def getNthD {α : Type} (d : α) : List α → Nat → α
  | [], _ => d
  | a :: _, 0 => a
  | _ :: t, n + 1 => getNthD d t n

/-- Write a 0-based position of a list, padding with `d` when the position
is past the end (openpyxl creates intermediate cells). -/
def setNthD {α : Type} (d : α) : List α → Nat → α → List α
  | [], 0, v => [v]
  | [], n + 1, v => d :: setNthD d [] n v
  | _ :: t, 0, v => v :: t
  | a :: t, n + 1, v => a :: setNthD d t n v

/-- Value of the 1-based column `col` of a data row. -/
def getRowCell (r : List CellVal) (col : Nat) : CellVal :=
  getNthD CellVal.empty r (col - 1)

/-- Set the 1-based column `col` of a data row. -/
def setRowCell (r : List CellVal) (col : Nat) (v : CellVal) : List CellVal :=
  setNthD CellVal.empty r (col - 1) v

/-- The data row at 2-based row number `row`. -/
def getSheetRow (s : Sheet) (row : Nat) : List CellVal :=
  getNthD [] s.rows (row - 2)

/-- Value of the cell at (2-based) `row`, (1-based) `col`; models
`sheet.cell(row=..., column=...).value`. -/
def getSheetCell (s : Sheet) (row col : Nat) : CellVal :=
  getRowCell (getSheetRow s row) col

/-- Model of `sheet.cell(row=..., column=..., value=...)`. -/
def setSheetCell (s : Sheet) (row col : Nat) (v : CellVal) : Sheet :=
  { s with rows := setNthD [] s.rows (row - 2) (setRowCell (getSheetRow s row) col v) }

/-- ASCII whitespace stripped by Python's `int(str)` conversion. -/
def isSpaceChar (c : Char) : Bool :=
  c == ' ' || c == '\t' || c == '\n' || c == '\r'

/-- Strip leading and trailing whitespace (Python `str.strip` as applied
implicitly by `int`). -/
def trimChars (l : List Char) : List Char :=
  ((l.dropWhile isSpaceChar).reverse.dropWhile isSpaceChar).reverse

/-- Accumulate the value of an all-digit character list, `none` on a
non-digit. -/
def digitsToNatAux : Nat → List Char → Option Nat
  | acc, [] => some acc
  | acc, c :: cs =>
    if c.isDigit then digitsToNatAux (acc * 10 + (c.toNat - 48)) cs else none

/-- Parse a nonempty decimal digit string. -/
def digitsToNat : List Char → Option Nat
  | [] => none
  | c :: cs => digitsToNatAux 0 (c :: cs)

/-- Python's `int(str)`: strip whitespace, optional sign, decimal digits;
`none` models a `ValueError`.  (Underscore grouping and non-ASCII digits
are not modelled.) -/
def pyParseInt (s : String) : Option Int :=
  match trimChars s.data with
  | [] => none
  | c :: cs =>
    if c == '-' then (digitsToNat cs).map (fun n => -(n : Int))
    else if c == '+' then (digitsToNat cs).map (fun n => (n : Int))
    else (digitsToNat (c :: cs)).map (fun n => (n : Int))

/-- `int(row[id_col_idx - 1].value)` at line 97: `none` models the
`ValueError`/`TypeError` caught at line 101. -/
def cellToInt : CellVal → Option Int
  | CellVal.empty => none
  | CellVal.str s => pyParseInt s
  | CellVal.intv n => some n

/-- `needle` is a leading segment of `hay` (character lists). -/
def charsLeading : List Char → List Char → Bool
  | [], _ => true
  | _ :: _, [] => false
  | a :: as, b :: bs => a == b && charsLeading as bs

/-- Substring occurrence on character lists. -/
def charsContain (needle : List Char) : List Char → Bool
  | [] => needle.isEmpty
  | a :: t => charsLeading needle (a :: t) || charsContain needle t

/-- Python's `needle in hay` on strings (substring containment), used at
line 133 for the content-type check. -/
def strContains (hay needle : String) : Bool :=
  charsContain needle.data hay.data

/-- An entry of the `error_ids` list built by `update_error`. -/
structure ErrEntry : Type where
  id : Int
  row : Nat
  url : String
deriving DecidableEq, Repr

/-- `update_error` (lines 55-62): append an `{id, row, url}` entry. -/
def update_error (errors : List ErrEntry) (e : ErrEntry) : List ErrEntry :=
  errors ++ [e]

/-- `get_error_url` (lines 64-66): human-facing error-reference URL keyed
by the ID. -/
def get_error_url (id : Int) : String :=
  "<URL>?id=" ++ toString id

/-- The body of an HTTP response as seen through `response.json()`:
`invalid` models a raised `JSONDecodeError`; `arr` a JSON array of objects
with string-valued fields (the shape the endpoint is specified to return;
other JSON shapes are outside every claim). -/
inductive JsonBody : Type where
  | invalid : JsonBody
  | arr : List (List (String × String)) → JsonBody
deriving DecidableEq, Repr

/-- Result of one `requests.get` call: `netFail` models a raised
`RequestException`; `resp status contentType body url` carries the status
code, the `Content-Type` header, the body and `response.url`. -/
inductive HttpResult : Type where
  | netFail : HttpResult
  | resp : Nat → String → JsonBody → String → HttpResult
deriving DecidableEq, Repr

/-- Python's `dict.get(key, '')` on a JSON object (line 148/149): value of
the key, or the empty string when absent. -/
def pyDictGet (obj : List (String × String)) (key : String) : String :=
  match obj.find? (fun kv => kv.1 == key) with
  | some kv => kv.2
  | none => ""

/-- Console output events abstracting the `print` calls of the loop body. -/
inductive LogEvent : Type where
  | nonJson : String → LogEvent
  | multipleItems : Nat → String → LogEvent
  | invalidJson : String → LogEvent
  | updatedRow : Nat → Int → LogEvent
  | requestFailed : Int → LogEvent
deriving DecidableEq, Repr

/-- Uncaught Python exceptions the loop body can raise: `indexError` from
`data[0]` on an empty array (line 148), `unboundLocal` from referencing
`error_url`/`response` in the `except` handler before their first
assignment (lines 161-162). -/
inductive PyExc : Type where
  | indexError : PyExc
  | unboundLocal : PyExc
deriving DecidableEq, Repr

/-- The configuration drawn from the command-line arguments that the loop
body consumes. `typeId`/`interfaceId` only feed the request parameters and
never influence the modelled behaviour. -/
structure Config : Type where
  typeId : Int
  interfaceId : Int
  titleKey : String
  bodyKey : String
deriving DecidableEq, Repr

/-- The 1-based column indices returned by `process_excel`. -/
structure Cols : Type where
  id : Nat
  title : Nat
  body : Nat
  error : Nat
deriving DecidableEq, Repr

/-- State threaded through the per-ID loop of `main` (lines 111-163):
the in-memory sheet, the last content persisted by `wb.save`, the
`error_ids` accumulator, the Python locals `response` (only its `.url` is
ever read later) and `error_url` — `none` while still unassigned — and the
console log. -/
structure LoopState : Type where
  sheet : Sheet
  savedFile : Sheet
  errors : List ErrEntry
  respUrl : Option String
  errorUrl : Option String
  log : List LogEvent
deriving DecidableEq, Repr

/-- One iteration of the loop body (lines 112-163) on the pair `p = (id,
row_num)`, given the HTTP oracle.  Mirrors the source's control flow,
including the fact that `error_url` and `response` are assigned only after
a successful `requests.get` (lines 123-125), so the `except
RequestException` handler (lines 159-163) reads stale values from an
earlier iteration, or raises `UnboundLocalError` when no `requests.get`
has returned yet. -/
def processPair (cfg : Config) (oracle : Int → Nat → HttpResult) (cols : Cols)
    (st : LoopState) (p : Int × Nat) : Except (PyExc × LoopState) LoopState :=
  match oracle p.1 p.2 with
  | HttpResult.netFail =>
    -- lines 159-163: the handler prints, then reads `error_url` and
    -- `response` which were last assigned in a previous iteration, if any
    let st1 := { st with log := st.log ++ [LogEvent.requestFailed p.1] }
    match st1.errorUrl, st1.respUrl with
    | none, _ => Except.error (PyExc.unboundLocal, st1)
    | some eu, none =>
        Except.error (PyExc.unboundLocal,
          { st1 with sheet := setSheetCell st1.sheet p.2 cols.error (CellVal.str eu) })
    | some eu, some ru =>
        Except.ok { st1 with
          sheet := setSheetCell st1.sheet p.2 cols.error (CellVal.str eu),
          errors := update_error st1.errors { id := p.1, row := p.2, url := ru } }
  | HttpResult.resp status ct body url =>
    -- lines 123-125: `response` and `error_url` are (re)assigned
    let st1 := { st with respUrl := some url, errorUrl := some (get_error_url p.1) }
    let eu := get_error_url p.1
    if status ≠ 200 then
      -- lines 126-130
      Except.ok { st1 with
        errors := update_error st1.errors { id := p.1, row := p.2, url := url },
        sheet := setSheetCell st1.sheet p.2 cols.error (CellVal.str eu) }
    else if strContains ct "application/json" = false then
      -- lines 132-135
      Except.ok { st1 with log := st1.log ++ [LogEvent.nonJson url] }
    else
      match body with
      | JsonBody.invalid =>
        -- lines 142-146
        Except.ok { st1 with
          log := st1.log ++ [LogEvent.invalidJson url],
          sheet := setSheetCell st1.sheet p.2 cols.error (CellVal.str eu),
          errors := update_error st1.errors { id := p.1, row := p.2, url := url } }
      | JsonBody.arr [] =>
        -- line 148: `data[0]` raises an uncaught IndexError
        Except.error (PyExc.indexError, st1)
      | JsonBody.arr (first :: rest) =>
        -- lines 139-141: length warning; lines 148-157: extract, write, save
        let st2 := if (first :: rest).length > 1
          then { st1 with log := st1.log ++ [LogEvent.multipleItems (first :: rest).length url] }
          else st1
        let sheet2 := setSheetCell (setSheetCell st2.sheet p.2 cols.title
          (CellVal.str (pyDictGet first cfg.titleKey))) p.2 cols.body
          (CellVal.str (pyDictGet first cfg.bodyKey))
        Except.ok { st2 with
          sheet := sheet2,
          savedFile := sheet2,
          log := st2.log ++ [LogEvent.updatedRow p.2 p.1] }

/-- The whole `for id_value, row_num in id_rows:` loop (lines 112-163). -/
def processPairs (cfg : Config) (oracle : Int → Nat → HttpResult) (cols : Cols) :
    LoopState → List (Int × Nat) → Except (PyExc × LoopState) LoopState
  | st, [] => Except.ok st
  | st, p :: rest =>
    match processPair cfg oracle cols st p with
    | Except.ok st1 => processPairs cfg oracle cols st1 rest
    | Except.error e => Except.error e

/-- 1-based position of the first occurrence of `v` (Python `list.index`
plus the `+ 1` of lines 48-51); `none` models the `ValueError`. -/
def findIdx1 (v : CellVal) : List CellVal → Option Nat
  | [] => none
  | a :: t => if a = v then some 1 else (findIdx1 v t).map (fun n => n + 1)

/-- The header values of row 1 (`[cell.value for cell in sheet[1]]`,
line 22). -/
def headerVals (s : Sheet) : List CellVal :=
  s.header.map Cell.value

/-- Lines 25-36 of `process_excel`: the `new_headers` list after the three
append-if-missing steps. -/
def newHeaders (headers : List CellVal) : List CellVal :=
  let nh1 := if CellVal.str "Title" ∈ headers then headers
    else headers ++ [CellVal.str "Title"]
  let nh2 := if CellVal.str "Body" ∈ nh1 then nh1 else nh1 ++ [CellVal.str "Body"]
  if CellVal.str "Error" ∈ nh2 then nh2 else nh2 ++ [CellVal.str "Error"]

/-- `process_excel` (lines 21-53): append the missing ones of
Title/Body/Error to the header, rewrite the header row in bold when
anything was appended, and return the four 1-based column indices.
`none` models the `ValueError` of `headers.index('ID')` (line 48), caught
in `main` (lines 89-91); the in-memory header mutation that precedes that
exception is dropped because `main` exits without saving it. -/
def process_excel (s : Sheet) : Option (Sheet × Cols) :=
  let headers := headerVals s
  let nh3 := newHeaders headers
  -- `columns_added` is true exactly when some append happened, i.e. when
  -- `new_headers` differs from `headers`
  let s1 := if nh3 = headers then s
    else { s with header := nh3.map (fun v => { value := v, bold := true }) }
  match findIdx1 (CellVal.str "ID") headers, findIdx1 (CellVal.str "Title") nh3,
        findIdx1 (CellVal.str "Body") nh3, findIdx1 (CellVal.str "Error") nh3 with
  | some i, some t, some b, some e => some (s1, { id := i, title := t, body := b, error := e })
  | _, _, _, _ => none

/-- The ID-collection loop (lines 94-102) from row number `rowIdx` on. -/
def collectIdsAux (idCol : Nat) : Nat → List (List CellVal) → List (Int × Nat)
  | _, [] => []
  | rowIdx, r :: rest =>
    match cellToInt (getRowCell r idCol) with
    | some v =>
      if 100 ≤ v ∧ v ≤ 100000 then (v, rowIdx) :: collectIdsAux idCol (rowIdx + 1) rest
      else collectIdsAux idCol (rowIdx + 1) rest
    | none => collectIdsAux idCol (rowIdx + 1) rest

/-- The ID collection of lines 93-102: scan the data rows (row 2 onward)
and keep `(id, row)` for every ID cell parsing to an integer in
[100, 100000]. -/
def collectIds (idCol : Nat) (rows : List (List CellVal)) : List (Int × Nat) :=
  collectIdsAux idCol 2 rows

/-- Spec-side recast of §4.2 / C3 ("produces the ordered sequence of
(id, row) pairs ... containing exactly the rows whose ID cell parses as an
integer id with 100 <= id <= 100000"), written independently as a
filterMap over the index-annotated rows.  Compared against `collectIds`. -/
def collectSpec (idCol : Nat) (rows : List (List CellVal)) : List (Int × Nat) :=
  (rows.enumFrom 2).filterMap fun ir =>
    match cellToInt (getRowCell ir.2 idCol) with
    | some v => if 100 ≤ v ∧ v ≤ 100000 then some (v, ir.1) else none
    | none => none

/-- Result of loading the workbook (lines 71-78): `notFound` models
`FileNotFoundError`, `invalidFile` models `InvalidFileException`, and
`workbook` the loaded name→sheet association. -/
inductive LoadResult : Type where
  | notFound : LoadResult
  | invalidFile : LoadResult
  | workbook : List (String × Sheet) → LoadResult
deriving DecidableEq, Repr

/-- `wb[name]` guarded by `name in wb.sheetnames` (lines 80-84). -/
def lookupSheet (sheets : List (String × Sheet)) (name : String) : Option Sheet :=
  (sheets.find? (fun ns => ns.1 == name)).map (fun ns => ns.2)

/-- How a run of `main` ends: `exitOne` is `sys.exit(1)`; `done st` is
normal completion (process exit status 0) with final loop state `st`;
`crash e st` is an uncaught exception `e` thrown with loop state `st`. -/
inductive MainOutcome : Type where
  | exitOne : MainOutcome
  | done : LoopState → MainOutcome
  | crash : PyExc → LoopState → MainOutcome
deriving DecidableEq, Repr

/-- The operating-system exit status of the process for each outcome; an
uncaught exception makes the CPython interpreter terminate with status 1. -/
def MainOutcome.exitCode : MainOutcome → Nat
  | MainOutcome.exitOne => 1
  | MainOutcome.done _ => 0
  | MainOutcome.crash _ _ => 1

/-- The loop state at entry of the per-ID loop: in-memory sheet `sheet1`
(post `process_excel`), on-disk file still holding the originally loaded
sheet `sheet0`, no errors, both locals unassigned, empty log. -/
def initState (sheet1 sheet0 : Sheet) : LoopState :=
  { sheet := sheet1, savedFile := sheet0, errors := [], respUrl := none,
    errorUrl := none, log := [] }

/-- `main` (lines 68-169), with the argument parsing, workbook loading and
HTTP layer replaced by the `sheetName`, `load` and `oracle` inputs. -/
def mainRun (cfg : Config) (sheetName : String) (load : LoadResult)
    (oracle : Int → Nat → HttpResult) : MainOutcome :=
  match load with
  | LoadResult.notFound => MainOutcome.exitOne
  | LoadResult.invalidFile => MainOutcome.exitOne
  | LoadResult.workbook sheets =>
    match lookupSheet sheets sheetName with
    | none => MainOutcome.exitOne
    | some sheet0 =>
      match process_excel sheet0 with
      | none => MainOutcome.exitOne
      | some (sheet1, cols) =>
        match collectIds cols.id sheet1.rows with
        | [] => MainOutcome.done (initState sheet1 sheet0)
        | p :: ps =>
          match processPairs cfg oracle cols (initState sheet1 sheet0) (p :: ps) with
          | Except.ok st => MainOutcome.done st
          | Except.error (e, st) => MainOutcome.crash e st

/-- Spec-side predicate for C8's "fatal configuration error": missing
file, invalid file format, requested sheet absent, or no "ID" header. -/
def isConfigError (sheetName : String) (load : LoadResult) : Bool :=
  match load with
  | LoadResult.notFound => true
  | LoadResult.invalidFile => true
  | LoadResult.workbook sheets =>
    match lookupSheet sheets sheetName with
    | none => true
    | some sh => (findIdx1 (CellVal.str "ID") (headerVals sh)).isNone

/-- Spec-side predicate for C1/C7: the response was a 200 whose
content type does not indicate JSON (line 133's substring test). -/
def nonJsonSkip : HttpResult → Bool
  | HttpResult.netFail => false
  | HttpResult.resp status ct _ _ => status == 200 && !(strContains ct "application/json")

/-! ## Cell-access lemmas -/

theorem getNthD_nil {α : Type} (d : α) (m : Nat) : getNthD d [] m = d := by
  cases m <;> rfl

theorem getNthD_setNthD {α : Type} (d : α) (l : List α) (m n : Nat) (v : α) :
    getNthD d (setNthD d l n v) m = if m = n then v else getNthD d l m := by
  induction n generalizing l m with
  | zero =>
    cases l with
    | nil => cases m <;> simp [setNthD, getNthD]
    | cons a t => cases m <;> simp [setNthD, getNthD]
  | succ n ih =>
    cases l with
    | nil =>
      cases m with
      | zero => simp [setNthD, getNthD]
      | succ m => simp [setNthD, getNthD, ih, getNthD_nil]
    | cons a t =>
      cases m with
      | zero => simp [setNthD, getNthD]
      | succ m => simp [setNthD, getNthD, ih]

/-- Reading after writing a sheet cell: the written value at the written
coordinates, the old value elsewhere (row numbers 2-based ≥ 2, column
numbers 1-based ≥ 1). -/
theorem getSheetCell_setSheetCell (s : Sheet) (row col r c : Nat) (v : CellVal)
    (hrow : 2 ≤ row) (hr : 2 ≤ r) (hcol : 1 ≤ col) (hc : 1 ≤ c) :
    getSheetCell (setSheetCell s row col v) r c =
      if r = row ∧ c = col then v else getSheetCell s r c := by
  unfold getSheetCell setSheetCell getSheetRow getRowCell setRowCell
  simp only
  rw [getNthD_setNthD]
  by_cases h1 : r = row
  · subst h1
    rw [if_pos rfl]
    rw [getNthD_setNthD]
    by_cases h2 : c = col
    · subst h2
      simp
    · have hne : c - 1 ≠ col - 1 := by omega
      rw [if_neg hne]
      simp [h2]
  · have hne : r - 2 ≠ row - 2 := by omega
    rw [if_neg hne]
    simp [h1]

/-- Writing a cell leaves every other row unchanged (no column bounds
needed). -/
theorem getSheetCell_set_row_ne (s : Sheet) (row col r c : Nat) (v : CellVal)
    (hrow : 2 ≤ row) (hr : 2 ≤ r) (hne : r ≠ row) :
    getSheetCell (setSheetCell s row col v) r c = getSheetCell s r c := by
  unfold getSheetCell setSheetCell getSheetRow
  simp only
  rw [getNthD_setNthD, if_neg (by omega : r - 2 ≠ row - 2)]

/-! ## Frame lemmas: one loop iteration writes only its own row -/

theorem processPair_frame (cfg : Config) (oracle : Int → Nat → HttpResult)
    (cols : Cols) (st : LoopState) (p : Int × Nat) (st1 : LoopState)
    (h : processPair cfg oracle cols st p = Except.ok st1)
    (r c : Nat) (hr : 2 ≤ r) (hp : 2 ≤ p.2) (hne : r ≠ p.2) :
    getSheetCell st1.sheet r c = getSheetCell st.sheet r c := by
  cases ho : oracle p.1 p.2 with
  | netFail =>
    simp only [processPair, ho] at h
    rcases heu : st.errorUrl with _ | eu
    · simp only [heu] at h
      exact Except.noConfusion h
    · rcases hru : st.respUrl with _ | ru
      · simp only [heu, hru] at h
        exact Except.noConfusion h
      · simp only [heu, hru, Except.ok.injEq] at h
        subst h
        exact getSheetCell_set_row_ne _ _ _ _ _ _ hp hr hne
  | resp status ct body url =>
    simp only [processPair, ho] at h
    split at h
    · cases h
      exact getSheetCell_set_row_ne _ _ _ _ _ _ hp hr hne
    · split at h
      · cases h
        rfl
      · match body, h with
        | JsonBody.invalid, h =>
          cases h
          exact getSheetCell_set_row_ne _ _ _ _ _ _ hp hr hne
        | JsonBody.arr [], h => cases h
        | JsonBody.arr (first :: rest), h =>
          cases h
          simp only
          rw [getSheetCell_set_row_ne _ _ _ _ _ _ hp hr hne,
            getSheetCell_set_row_ne _ _ _ _ _ _ hp hr hne]
          split <;> rfl

theorem processPairs_frame (cfg : Config) (oracle : Int → Nat → HttpResult)
    (cols : Cols) (pairs : List (Int × Nat)) (st st' : LoopState)
    (hp : ∀ q ∈ pairs, 2 ≤ q.2)
    (h : processPairs cfg oracle cols st pairs = Except.ok st')
    (r c : Nat) (hr : 2 ≤ r) (hnot : r ∉ pairs.map Prod.snd) :
    getSheetCell st'.sheet r c = getSheetCell st.sheet r c := by
  induction pairs generalizing st with
  | nil =>
    simp only [processPairs] at h
    cases h
    rfl
  | cons p rest ih =>
    rw [show processPairs cfg oracle cols st (p :: rest) =
        (match processPair cfg oracle cols st p with
         | Except.ok st1 => processPairs cfg oracle cols st1 rest
         | Except.error e => Except.error e) from rfl] at h
    cases hpp : processPair cfg oracle cols st p with
    | error e =>
      simp only [hpp] at h
      exact Except.noConfusion h
    | ok st1 =>
      simp only [hpp] at h
      have hne : r ≠ p.2 := by
        intro hcontra
        exact hnot (by rw [List.map_cons, hcontra]; exact List.mem_cons_self _ _)
      have h1 := processPair_frame cfg oracle cols st p st1 hpp r c hr
        (hp p (List.mem_cons_self _ _)) hne
      have h2 := ih st1 (fun q hq => hp q (List.mem_cons_of_mem _ hq)) h
        (fun hcontra => hnot (by rw [List.map_cons]; exact List.mem_cons_of_mem _ hcontra))
      rw [h2, h1]

/-! ## ID-collection lemmas -/

theorem collectIdsAux_eq (idCol n : Nat) (rows : List (List CellVal)) :
    collectIdsAux idCol n rows = (rows.enumFrom n).filterMap (fun ir =>
      match cellToInt (getRowCell ir.2 idCol) with
      | some v => if 100 ≤ v ∧ v ≤ 100000 then some (v, ir.1) else none
      | none => none) := by
  induction rows generalizing n with
  | nil => rfl
  | cons r rest ih =>
    rw [List.enumFrom_cons, List.filterMap_cons]
    simp only [collectIdsAux]
    cases hc : cellToInt (getRowCell r idCol) with
    | none => simp only [hc, ih]
    | some v =>
      by_cases hr : 100 ≤ v ∧ v ≤ 100000
      · simp only [hc, if_pos hr, ih]
      · simp only [hc, if_neg hr, ih]

theorem collectIds_eq_spec (idCol : Nat) (rows : List (List CellVal)) :
    collectIds idCol rows = collectSpec idCol rows :=
  collectIdsAux_eq idCol 2 rows

theorem collectIdsAux_lb (idCol : Nat) (rows : List (List CellVal)) :
    ∀ n, ∀ q ∈ collectIdsAux idCol n rows, n ≤ q.2 := by
  induction rows with
  | nil => intro n q hq; simp [collectIdsAux] at hq
  | cons r rest ih =>
    intro n q hq
    simp only [collectIdsAux] at hq
    cases hc : cellToInt (getRowCell r idCol) with
    | none =>
      simp only [hc] at hq
      exact Nat.le_trans (Nat.le_succ n) (ih (n + 1) q hq)
    | some v =>
      simp only [hc] at hq
      by_cases hr : 100 ≤ v ∧ v ≤ 100000
      · rw [if_pos hr] at hq
        rcases List.mem_cons.mp hq with h1 | h2
        · rw [h1]
        · exact Nat.le_trans (Nat.le_succ n) (ih (n + 1) q h2)
      · rw [if_neg hr] at hq
        exact Nat.le_trans (Nat.le_succ n) (ih (n + 1) q hq)

/-- Every collected pair names a data row (row number at least 2). -/
theorem collectIds_lb (idCol : Nat) (rows : List (List CellVal)) :
    ∀ q ∈ collectIds idCol rows, 2 ≤ q.2 :=
  collectIdsAux_lb idCol rows 2

theorem collectIdsAux_pairwise (idCol : Nat) (rows : List (List CellVal)) :
    ∀ n, List.Pairwise (fun a b : Int × Nat => a.2 < b.2) (collectIdsAux idCol n rows) := by
  induction rows with
  | nil => intro n; exact List.Pairwise.nil
  | cons r rest ih =>
    intro n
    cases hc : cellToInt (getRowCell r idCol) with
    | none => simp only [collectIdsAux, hc]; exact ih (n + 1)
    | some v =>
      simp only [collectIdsAux, hc]
      by_cases hr : 100 ≤ v ∧ v ≤ 100000
      · rw [if_pos hr]
        exact List.Pairwise.cons
          (fun q hq => Nat.lt_of_lt_of_le (Nat.lt_succ_self n)
            (collectIdsAux_lb idCol rest (n + 1) q hq))
          (ih (n + 1))
      · rw [if_neg hr]
        exact ih (n + 1)

theorem collectIds_mem_iff (idCol : Nat) (rows : List (List CellVal)) (v : Int) (r : Nat) :
    (v, r) ∈ collectIds idCol rows ↔
      (2 ≤ r ∧ ∃ rowData, rows[r - 2]? = some rowData ∧
        cellToInt (getRowCell rowData idCol) = some v ∧ 100 ≤ v ∧ v ≤ 100000) := by
  rw [collectIds_eq_spec]
  unfold collectSpec
  rw [List.mem_filterMap]
  constructor
  · rintro ⟨⟨i, rowData⟩, hmem, hf⟩
    rcases hc : cellToInt (getRowCell rowData idCol) with _ | w
    · simp [hc] at hf
    · simp only [hc] at hf
      by_cases hr100 : 100 ≤ w ∧ w ≤ 100000
      · rw [if_pos hr100] at hf
        have hw : w = v ∧ i = r := by
          have := Option.some.inj hf
          exact ⟨congrArg Prod.fst this, congrArg Prod.snd this⟩
        obtain ⟨hle, hget⟩ := List.mk_mem_enumFrom_iff_le_and_getElem?_sub.mp hmem
        refine ⟨hw.2 ▸ hle, rowData, hw.2 ▸ hget, ?_, hw.1 ▸ hr100.1, hw.1 ▸ hr100.2⟩
        rw [hc, hw.1]
      · rw [if_neg hr100] at hf
        exact Option.noConfusion hf
  · rintro ⟨hr2, rowData, hget, hcell, h1, h2⟩
    refine ⟨(r, rowData), List.mk_mem_enumFrom_iff_le_and_getElem?_sub.mpr ⟨hr2, hget⟩, ?_⟩
    simp only [hcell]
    rw [if_pos ⟨h1, h2⟩]

/-! ## Header-setup lemmas -/

theorem findIdx1_eq_none_iff (v : CellVal) (l : List CellVal) :
    findIdx1 v l = none ↔ v ∉ l := by
  induction l with
  | nil => simp [findIdx1]
  | cons a t ih =>
    simp only [findIdx1]
    by_cases h : a = v
    · simp [h]
    · simp only [if_neg h, Option.map_eq_none', ih, List.mem_cons]
      constructor
      · intro hnt hor
        rcases hor with h1 | h2
        · exact h h1.symm
        · exact hnt h2
      · intro hall
        exact fun h2 => hall (Or.inr h2)

theorem findIdx1_isSome_of_mem (v : CellVal) (l : List CellVal) (h : v ∈ l) :
    ∃ n, findIdx1 v l = some n := by
  cases hf : findIdx1 v l with
  | none => exact absurd h ((findIdx1_eq_none_iff v l).mp hf)
  | some n => exact ⟨n, rfl⟩

theorem findIdx1_append_some (v : CellVal) (l t : List CellVal) (n : Nat)
    (h : findIdx1 v l = some n) : findIdx1 v (l ++ t) = some n := by
  induction l generalizing n with
  | nil => exact absurd h (by simp [findIdx1])
  | cons a l2 ih =>
    simp only [findIdx1, List.cons_append, List.append_eq] at h ⊢
    by_cases ha : a = v
    · rwa [if_pos ha] at h ⊢
    · rw [if_neg ha] at h ⊢
      cases hf : findIdx1 v l2 with
      | none => rw [hf] at h; exact absurd h (by simp)
      | some m =>
        rw [hf] at h
        rw [ih m hf]
        exact h

theorem newHeaders_eq (hv : List CellVal) :
    newHeaders hv = hv
      ++ ((if CellVal.str "Title" ∈ hv then [] else [CellVal.str "Title"])
      ++ ((if CellVal.str "Body" ∈ hv then [] else [CellVal.str "Body"])
      ++ (if CellVal.str "Error" ∈ hv then [] else [CellVal.str "Error"]))) := by
  by_cases hT : CellVal.str "Title" ∈ hv <;>
    by_cases hB : CellVal.str "Body" ∈ hv <;>
      by_cases hE : CellVal.str "Error" ∈ hv <;>
        simp [newHeaders, hT, hB, hE]

theorem title_mem_newHeaders (hv : List CellVal) :
    CellVal.str "Title" ∈ newHeaders hv := by
  rw [newHeaders_eq]
  by_cases hT : CellVal.str "Title" ∈ hv <;> simp [hT]

theorem body_mem_newHeaders (hv : List CellVal) :
    CellVal.str "Body" ∈ newHeaders hv := by
  rw [newHeaders_eq]
  by_cases hB : CellVal.str "Body" ∈ hv <;> simp [hB]

theorem error_mem_newHeaders (hv : List CellVal) :
    CellVal.str "Error" ∈ newHeaders hv := by
  rw [newHeaders_eq]
  by_cases hE : CellVal.str "Error" ∈ hv <;> simp [hE]

theorem newHeaders_idem (hv : List CellVal) :
    newHeaders (newHeaders hv) = newHeaders hv := by
  rw [newHeaders_eq (newHeaders hv), if_pos (title_mem_newHeaders hv),
    if_pos (body_mem_newHeaders hv), if_pos (error_mem_newHeaders hv)]
  simp

/-! ## Claim theorems -/

/-- C6: for every (id, row) pair whose HTTP GET returns a status code other
than 200, the loop appends an error entry {id, row, url} whose url is the
actual request URL, writes the error-reference URL constructed from the id
into the row's Error cell, and continues with the next ID (the iteration
returns normally). -/
theorem c6_non200_writes_error (cfg : Config) (oracle : Int → Nat → HttpResult)
    (cols : Cols) (st : LoopState) (p : Int × Nat) (status : Nat) (ct : String)
    (body : JsonBody) (url : String)
    (ho : oracle p.1 p.2 = HttpResult.resp status ct body url) (hs : status ≠ 200) :
    processPair cfg oracle cols st p =
      Except.ok { st with
        respUrl := some url,
        errorUrl := some (get_error_url p.1),
        errors := update_error st.errors { id := p.1, row := p.2, url := url },
        sheet := setSheetCell st.sheet p.2 cols.error (CellVal.str (get_error_url p.1)) } := by
  simp only [processPair, ho, if_pos hs]

/-- C7: for every (id, row) pair whose HTTP GET returns status 200 with a
content type that does not indicate JSON, the row is skipped entirely: no
cell of the sheet is written, no error entry is recorded, nothing is saved
(only a log line is emitted and the two Python locals are reassigned), and
the iteration returns normally so processing continues with the next ID. -/
theorem c7_nonjson_content_skips_row (cfg : Config) (oracle : Int → Nat → HttpResult)
    (cols : Cols) (st : LoopState) (p : Int × Nat) (ct : String) (body : JsonBody)
    (url : String) (ho : oracle p.1 p.2 = HttpResult.resp 200 ct body url)
    (hct : strContains ct "application/json" = false) :
    processPair cfg oracle cols st p =
      Except.ok { st with
        respUrl := some url,
        errorUrl := some (get_error_url p.1),
        log := st.log ++ [LogEvent.nonJson url] } := by
  simp [processPair, ho, hct]

/-- C9: if the API returns status 200 with a JSON content type and a body
parsing to an empty array, the run aborts with an uncaught IndexError at
the first-element access: the row's cells are untouched, no error entry is
recorded, and the remaining (id, row) pairs are not processed. -/
theorem c9_empty_array_aborts_batch (cfg : Config) (oracle : Int → Nat → HttpResult)
    (cols : Cols) (st : LoopState) (p : Int × Nat) (rest : List (Int × Nat))
    (ct : String) (url : String)
    (ho : oracle p.1 p.2 = HttpResult.resp 200 ct (JsonBody.arr []) url)
    (hct : strContains ct "application/json" = true) :
    processPairs cfg oracle cols st (p :: rest) =
      Except.error (PyExc.indexError,
        { st with respUrl := some url, errorUrl := some (get_error_url p.1) }) := by
  have hstep : processPair cfg oracle cols st p =
      Except.error (PyExc.indexError,
        { st with respUrl := some url, errorUrl := some (get_error_url p.1) }) := by
    simp [processPair, ho, hct]
  rw [show processPairs cfg oracle cols st (p :: rest) =
      (match processPair cfg oracle cols st p with
       | Except.ok st1 => processPairs cfg oracle cols st1 rest
       | Except.error e => Except.error e) from rfl]
  simp only [hstep]

/-- C4: for every (id, row) pair whose 200/JSON response parses as a
(nonempty) array, the loop extracts the configured title and body keys
from the first element only, substituting the empty string for a missing
key, writes them into the row's Title and Body cells, persists the whole
workbook before moving on (the saved file equals the updated sheet), logs
a warning — and records no error — when the array has more than one
element, and touches no other cell. -/
theorem c4_success_writes_first_element (cfg : Config) (oracle : Int → Nat → HttpResult)
    (cols : Cols) (st : LoopState) (p : Int × Nat) (ct : String)
    (first : List (String × String)) (rest : List (List (String × String))) (url : String)
    (ho : oracle p.1 p.2 = HttpResult.resp 200 ct (JsonBody.arr (first :: rest)) url)
    (hct : strContains ct "application/json" = true)
    (hrow : 2 ≤ p.2) (htc : 1 ≤ cols.title) (hbc : 1 ≤ cols.body)
    (htb : cols.title ≠ cols.body) :
    ∃ st', processPair cfg oracle cols st p = Except.ok st' ∧
      getSheetCell st'.sheet p.2 cols.title = CellVal.str (pyDictGet first cfg.titleKey) ∧
      getSheetCell st'.sheet p.2 cols.body = CellVal.str (pyDictGet first cfg.bodyKey) ∧
      (first.find? (fun kv => kv.1 == cfg.titleKey) = none →
        getSheetCell st'.sheet p.2 cols.title = CellVal.str "") ∧
      (first.find? (fun kv => kv.1 == cfg.bodyKey) = none →
        getSheetCell st'.sheet p.2 cols.body = CellVal.str "") ∧
      st'.errors = st.errors ∧
      st'.savedFile = st'.sheet ∧
      (∀ r c, 2 ≤ r → 1 ≤ c → (r ≠ p.2 ∨ (c ≠ cols.title ∧ c ≠ cols.body)) →
        getSheetCell st'.sheet r c = getSheetCell st.sheet r c) ∧
      ((first :: rest).length > 1 →
        st'.log = st.log ++ [LogEvent.multipleItems (first :: rest).length url,
          LogEvent.updatedRow p.2 p.1]) ∧
      (¬(first :: rest).length > 1 →
        st'.log = st.log ++ [LogEvent.updatedRow p.2 p.1]) := by
  set S2 : Sheet := setSheetCell (setSheetCell st.sheet p.2 cols.title
    (CellVal.str (pyDictGet first cfg.titleKey))) p.2 cols.body
    (CellVal.str (pyDictGet first cfg.bodyKey)) with hS2
  have hTitleCell : getSheetCell S2 p.2 cols.title =
      CellVal.str (pyDictGet first cfg.titleKey) := by
    have h1 := getSheetCell_setSheetCell (setSheetCell st.sheet p.2 cols.title
      (CellVal.str (pyDictGet first cfg.titleKey))) p.2 cols.body p.2 cols.title
      (CellVal.str (pyDictGet first cfg.bodyKey)) hrow hrow hbc htc
    rw [if_neg (fun hc => htb hc.2)] at h1
    have h2 := getSheetCell_setSheetCell st.sheet p.2 cols.title p.2 cols.title
      (CellVal.str (pyDictGet first cfg.titleKey)) hrow hrow htc htc
    rw [if_pos ⟨rfl, rfl⟩] at h2
    rw [hS2, h1, h2]
  have hBodyCell : getSheetCell S2 p.2 cols.body =
      CellVal.str (pyDictGet first cfg.bodyKey) := by
    have h1 := getSheetCell_setSheetCell (setSheetCell st.sheet p.2 cols.title
      (CellVal.str (pyDictGet first cfg.titleKey))) p.2 cols.body p.2 cols.body
      (CellVal.str (pyDictGet first cfg.bodyKey)) hrow hrow hbc hbc
    rw [if_pos ⟨rfl, rfl⟩] at h1
    rw [hS2, h1]
  have hFrame : ∀ r c, 2 ≤ r → 1 ≤ c → (r ≠ p.2 ∨ (c ≠ cols.title ∧ c ≠ cols.body)) →
      getSheetCell S2 r c = getSheetCell st.sheet r c := by
    intro r c hr hc hor
    have hc1 : ¬(r = p.2 ∧ c = cols.body) := by
      rcases hor with h1 | h2
      · exact fun hc => h1 hc.1
      · exact fun hc => h2.2 hc.2
    have hc2 : ¬(r = p.2 ∧ c = cols.title) := by
      rcases hor with h1 | h2
      · exact fun hc => h1 hc.1
      · exact fun hc => h2.1 hc.2
    have h1 := getSheetCell_setSheetCell (setSheetCell st.sheet p.2 cols.title
      (CellVal.str (pyDictGet first cfg.titleKey))) p.2 cols.body r c
      (CellVal.str (pyDictGet first cfg.bodyKey)) hrow hr hbc hc
    rw [if_neg hc1] at h1
    have h2 := getSheetCell_setSheetCell st.sheet p.2 cols.title r c
      (CellVal.str (pyDictGet first cfg.titleKey)) hrow hr htc hc
    rw [if_neg hc2] at h2
    rw [hS2, h1, h2]
  have hTitleNone : first.find? (fun kv => kv.1 == cfg.titleKey) = none →
      pyDictGet first cfg.titleKey = "" := by
    intro hf
    unfold pyDictGet
    rw [hf]
  have hBodyNone : first.find? (fun kv => kv.1 == cfg.bodyKey) = none →
      pyDictGet first cfg.bodyKey = "" := by
    intro hf
    unfold pyDictGet
    rw [hf]
  by_cases hlen : (first :: rest).length > 1
  · refine ⟨LoopState.mk S2 S2 st.errors (some url) (some (get_error_url p.1))
      ((st.log ++ [LogEvent.multipleItems (first :: rest).length url]) ++
        [LogEvent.updatedRow p.2 p.1]), ?_, ?_, ?_, ?_, ?_, ?_, ?_, ?_, ?_, ?_⟩
    · have hlen2 : 0 < rest.length := by
        simp only [List.length_cons] at hlen
        omega
      simp [processPair, ho, hct, hlen2, hS2]
    · exact hTitleCell
    · exact hBodyCell
    · intro hf
      have h := hTitleCell
      rw [hTitleNone hf] at h
      exact h
    · intro hf
      have h := hBodyCell
      rw [hBodyNone hf] at h
      exact h
    · rfl
    · rfl
    · exact hFrame
    · intro _
      simp
    · intro hcon
      exact absurd hlen hcon
  · refine ⟨LoopState.mk S2 S2 st.errors (some url) (some (get_error_url p.1))
      (st.log ++ [LogEvent.updatedRow p.2 p.1]), ?_, ?_, ?_, ?_, ?_, ?_, ?_, ?_, ?_, ?_⟩
    · have hlen2 : ¬ 0 < rest.length := by
        simp only [List.length_cons] at hlen
        omega
      simp [processPair, ho, hct, hlen2, hS2]
    · exact hTitleCell
    · exact hBodyCell
    · intro hf
      have h := hTitleCell
      rw [hTitleNone hf] at h
      exact h
    · intro hf
      have h := hBodyCell
      rw [hBodyNone hf] at h
      exact h
    · rfl
    · rfl
    · exact hFrame
    · intro hcon
      exact absurd hcon hlen
    · intro _
      rfl

/-- C10: one loop iteration persists the workbook only on the successful
Title/Body path (a changed saved file means a 200/JSON nonempty-array
response, and what is saved is the current sheet); an iteration that
changed the row's Error cell saved nothing, so an Error marker reaches the
persisted file only through a later successful row's save. -/
theorem c10_save_only_on_success (cfg : Config) (oracle : Int → Nat → HttpResult)
    (cols : Cols) (st : LoopState) (p : Int × Nat) (st' : LoopState)
    (hrow : 2 ≤ p.2) (htc : 1 ≤ cols.title) (hbc : 1 ≤ cols.body) (hec : 1 ≤ cols.error)
    (het : cols.error ≠ cols.title) (heb : cols.error ≠ cols.body)
    (h : processPair cfg oracle cols st p = Except.ok st') :
    (st'.savedFile ≠ st.savedFile →
      st'.savedFile = st'.sheet ∧
      ∃ ct first rest url,
        oracle p.1 p.2 = HttpResult.resp 200 ct (JsonBody.arr (first :: rest)) url ∧
        strContains ct "application/json" = true) ∧
    (getSheetCell st'.sheet p.2 cols.error ≠ getSheetCell st.sheet p.2 cols.error →
      st'.savedFile = st.savedFile) := by
  have hcellskip : ∀ (s0 : Sheet) (x y : CellVal),
      getSheetCell (setSheetCell (setSheetCell s0 p.2 cols.title x) p.2 cols.body y)
        p.2 cols.error = getSheetCell s0 p.2 cols.error := by
    intro s0 x y
    rw [getSheetCell_setSheetCell _ p.2 cols.body p.2 cols.error _ hrow hrow hbc hec,
      if_neg (fun hc => heb hc.2),
      getSheetCell_setSheetCell _ p.2 cols.title p.2 cols.error _ hrow hrow htc hec,
      if_neg (fun hc => het hc.2)]
  cases ho : oracle p.1 p.2 with
  | netFail =>
    simp only [processPair, ho] at h
    rcases heu : st.errorUrl with _ | eu
    · simp only [heu] at h
      exact Except.noConfusion h
    · rcases hru : st.respUrl with _ | ru
      · simp only [heu, hru] at h
        exact Except.noConfusion h
      · simp only [heu, hru, Except.ok.injEq] at h
        subst h
        exact ⟨fun hne => absurd rfl hne, fun _ => rfl⟩
  | resp status ct body url =>
    cases body with
    | invalid =>
      simp only [processPair, ho] at h
      split at h
      · cases h
        exact ⟨fun hne => absurd rfl hne, fun _ => rfl⟩
      · split at h
        · cases h
          exact ⟨fun hne => absurd rfl hne, fun _ => rfl⟩
        · cases h
          exact ⟨fun hne => absurd rfl hne, fun _ => rfl⟩
    | arr items =>
      cases items with
      | nil =>
        simp only [processPair, ho] at h
        split at h
        · cases h
          exact ⟨fun hne => absurd rfl hne, fun _ => rfl⟩
        · split at h
          · cases h
            exact ⟨fun hne => absurd rfl hne, fun _ => rfl⟩
          · exact Except.noConfusion h
      | cons first rest =>
        simp only [processPair, ho] at h
        split at h
        · cases h
          exact ⟨fun hne => absurd rfl hne, fun _ => rfl⟩
        · rename_i hs
          have hs200 : status = 200 := not_not.mp hs
          split at h
          · cases h
            exact ⟨fun hne => absurd rfl hne, fun _ => rfl⟩
          · rename_i hctf
            have hct : strContains ct "application/json" = true := by
              cases hb : strContains ct "application/json" with
              | false => exact absurd hb hctf
              | true => rfl
            cases h
            subst hs200
            constructor
            · intro _
              exact ⟨rfl, ct, first, rest, url, rfl, hct⟩
            · intro hch
              exfalso
              apply hch
              rw [hcellskip]
              split <;> rfl

/-- C1 (amended): in a run of the per-ID loop that terminates without an
uncaught exception, every processed row ends with either Title and Body
populated (and Error empty) or its Error cell populated (and Title/Body
empty) — mutually exclusive — except when that row's response was a 200
with non-JSON content type, in which case all three cells stay empty.
The original claim, quantified over aborted runs as well, fails: an empty
JSON array kills the batch leaving the row with neither outcome even
though the content type was JSON (see the counterexample theorem). -/
theorem c1_row_outcome_invariant
    (cfg : Config) (oracle : Int → Nat → HttpResult) (cols : Cols)
    (st st' : LoopState) (pairs : List (Int × Nat))
    (htc : 1 ≤ cols.title) (hbc : 1 ≤ cols.body) (hec : 1 ≤ cols.error)
    (htb : cols.title ≠ cols.body) (hte : cols.title ≠ cols.error)
    (hbe : cols.body ≠ cols.error)
    (hrows2 : ∀ p ∈ pairs, 2 ≤ p.2)
    (hsorted : List.Pairwise (fun a b : Int × Nat => a.2 < b.2) pairs)
    (hempty : ∀ p ∈ pairs,
      getSheetCell st.sheet p.2 cols.title = CellVal.empty ∧
      getSheetCell st.sheet p.2 cols.body = CellVal.empty ∧
      getSheetCell st.sheet p.2 cols.error = CellVal.empty)
    (hrun : processPairs cfg oracle cols st pairs = Except.ok st') :
    ∀ p ∈ pairs,
      (getSheetCell st'.sheet p.2 cols.title ≠ CellVal.empty ∧
       getSheetCell st'.sheet p.2 cols.body ≠ CellVal.empty ∧
       getSheetCell st'.sheet p.2 cols.error = CellVal.empty) ∨
      (getSheetCell st'.sheet p.2 cols.error ≠ CellVal.empty ∧
       getSheetCell st'.sheet p.2 cols.title = CellVal.empty ∧
       getSheetCell st'.sheet p.2 cols.body = CellVal.empty) ∨
      (nonJsonSkip (oracle p.1 p.2) = true ∧
       getSheetCell st'.sheet p.2 cols.title = CellVal.empty ∧
       getSheetCell st'.sheet p.2 cols.body = CellVal.empty ∧
       getSheetCell st'.sheet p.2 cols.error = CellVal.empty) := by
  revert hrows2 hsorted st
  induction pairs with
  | nil =>
    intro st hrows2 hsorted hempty hrun p hp
    exact absurd hp (List.not_mem_nil p)
  | cons p rest ih =>
    intro st hrows2 hsorted hempty hrun q hq
    rw [show processPairs cfg oracle cols st (p :: rest) =
        (match processPair cfg oracle cols st p with
         | Except.ok st1 => processPairs cfg oracle cols st1 rest
         | Except.error e => Except.error e) from rfl] at hrun
    cases hpp : processPair cfg oracle cols st p with
    | error e =>
      simp only [hpp] at hrun
      exact Except.noConfusion hrun
    | ok st1 =>
      simp only [hpp] at hrun
      have hrest2 : ∀ q2 ∈ rest, 2 ≤ q2.2 :=
        fun q2 hq2 => hrows2 q2 (List.mem_cons_of_mem _ hq2)
      have hp2 : 2 ≤ p.2 := hrows2 p (List.mem_cons_self _ _)
      have hgt : ∀ q2 ∈ rest, p.2 < q2.2 := (List.pairwise_cons.mp hsorted).1
      rcases List.mem_cons.mp hq with hqp | hqrest
      · -- q is the pair processed this iteration
        subst hqp
        have hnotin : q.2 ∉ rest.map Prod.snd := by
          intro hc
          obtain ⟨q2, hq2, hq2e⟩ := List.mem_map.mp hc
          exact absurd (hq2e ▸ hgt q2 hq2) (lt_irrefl q.2)
        have htrans : ∀ c, getSheetCell st'.sheet q.2 c = getSheetCell st1.sheet q.2 c :=
          fun c => processPairs_frame cfg oracle cols rest st1 st' hrest2 hrun q.2 c
            hp2 hnotin
        obtain ⟨hT0, hB0, hE0⟩ := hempty q (List.mem_cons_self _ _)
        have herrcells : ∀ (eu : String),
            getSheetCell (setSheetCell st.sheet q.2 cols.error (CellVal.str eu))
              q.2 cols.error = CellVal.str eu ∧
            getSheetCell (setSheetCell st.sheet q.2 cols.error (CellVal.str eu))
              q.2 cols.title = CellVal.empty ∧
            getSheetCell (setSheetCell st.sheet q.2 cols.error (CellVal.str eu))
              q.2 cols.body = CellVal.empty := by
          intro eu
          refine ⟨?_, ?_, ?_⟩
          · rw [getSheetCell_setSheetCell st.sheet q.2 cols.error q.2 cols.error _
              hp2 hp2 hec hec, if_pos ⟨rfl, rfl⟩]
          · rw [getSheetCell_setSheetCell st.sheet q.2 cols.error q.2 cols.title _
              hp2 hp2 hec htc, if_neg (fun hc => hte hc.2)]
            exact hT0
          · rw [getSheetCell_setSheetCell st.sheet q.2 cols.error q.2 cols.body _
              hp2 hp2 hec hbc, if_neg (fun hc => hbe hc.2)]
            exact hB0
        have hsucccells : ∀ (x y : String),
            getSheetCell (setSheetCell (setSheetCell st.sheet q.2 cols.title
              (CellVal.str x)) q.2 cols.body (CellVal.str y)) q.2 cols.title =
                CellVal.str x ∧
            getSheetCell (setSheetCell (setSheetCell st.sheet q.2 cols.title
              (CellVal.str x)) q.2 cols.body (CellVal.str y)) q.2 cols.body =
                CellVal.str y ∧
            getSheetCell (setSheetCell (setSheetCell st.sheet q.2 cols.title
              (CellVal.str x)) q.2 cols.body (CellVal.str y)) q.2 cols.error =
                CellVal.empty := by
          intro x y
          refine ⟨?_, ?_, ?_⟩
          · rw [getSheetCell_setSheetCell _ q.2 cols.body q.2 cols.title _
              hp2 hp2 hbc htc, if_neg (fun hc => htb hc.2),
              getSheetCell_setSheetCell _ q.2 cols.title q.2 cols.title _
              hp2 hp2 htc htc, if_pos ⟨rfl, rfl⟩]
          · rw [getSheetCell_setSheetCell _ q.2 cols.body q.2 cols.body _
              hp2 hp2 hbc hbc, if_pos ⟨rfl, rfl⟩]
          · rw [getSheetCell_setSheetCell _ q.2 cols.body q.2 cols.error _
              hp2 hp2 hbc hec, if_neg (fun hc => hbe hc.2.symm),
              getSheetCell_setSheetCell _ q.2 cols.title q.2 cols.error _
              hp2 hp2 htc hec, if_neg (fun hc => hte hc.2.symm)]
            exact hE0
        cases ho : oracle q.1 q.2 with
        | netFail =>
          simp only [processPair, ho] at hpp
          rcases heu : st.errorUrl with _ | eu
          · simp only [heu] at hpp
            exact Except.noConfusion hpp
          · rcases hru : st.respUrl with _ | ru
            · simp only [heu, hru] at hpp
              exact Except.noConfusion hpp
            · simp only [heu, hru, Except.ok.injEq] at hpp
              subst hpp
              refine Or.inr (Or.inl ⟨?_, ?_, ?_⟩)
              · exact fun hcontra => CellVal.noConfusion
                  ((herrcells eu).1.symm.trans ((htrans cols.error).symm.trans hcontra))
              · exact (htrans cols.title).trans (herrcells eu).2.1
              · exact (htrans cols.body).trans (herrcells eu).2.2
        | resp status ct body url =>
          cases body with
          | invalid =>
            simp only [processPair, ho] at hpp
            split at hpp
            · cases hpp
              refine Or.inr (Or.inl ⟨?_, ?_, ?_⟩)
              · exact fun hcontra => CellVal.noConfusion
                  ((herrcells (get_error_url q.1)).1.symm.trans
                    ((htrans cols.error).symm.trans hcontra))
              · exact (htrans cols.title).trans (herrcells (get_error_url q.1)).2.1
              · exact (htrans cols.body).trans (herrcells (get_error_url q.1)).2.2
            · rename_i hs
              split at hpp
              · rename_i hct0
                cases hpp
                refine Or.inr (Or.inr ⟨?_, ?_, ?_, ?_⟩)
                · simp [nonJsonSkip, not_not.mp hs, hct0]
                · exact (htrans cols.title).trans hT0
                · exact (htrans cols.body).trans hB0
                · exact (htrans cols.error).trans hE0
              · cases hpp
                refine Or.inr (Or.inl ⟨?_, ?_, ?_⟩)
                · exact fun hcontra => CellVal.noConfusion
                    ((herrcells (get_error_url q.1)).1.symm.trans
                      ((htrans cols.error).symm.trans hcontra))
                · exact (htrans cols.title).trans (herrcells (get_error_url q.1)).2.1
                · exact (htrans cols.body).trans (herrcells (get_error_url q.1)).2.2
          | arr items =>
            cases items with
            | nil =>
              simp only [processPair, ho] at hpp
              split at hpp
              · cases hpp
                refine Or.inr (Or.inl ⟨?_, ?_, ?_⟩)
                · exact fun hcontra => CellVal.noConfusion
                    ((herrcells (get_error_url q.1)).1.symm.trans
                      ((htrans cols.error).symm.trans hcontra))
                · exact (htrans cols.title).trans (herrcells (get_error_url q.1)).2.1
                · exact (htrans cols.body).trans (herrcells (get_error_url q.1)).2.2
              · rename_i hs
                split at hpp
                · rename_i hct0
                  cases hpp
                  refine Or.inr (Or.inr ⟨?_, ?_, ?_, ?_⟩)
                  · simp [nonJsonSkip, not_not.mp hs, hct0]
                  · exact (htrans cols.title).trans hT0
                  · exact (htrans cols.body).trans hB0
                  · exact (htrans cols.error).trans hE0
                · exact Except.noConfusion hpp
            | cons first rest1 =>
              simp only [processPair, ho] at hpp
              split at hpp
              · cases hpp
                refine Or.inr (Or.inl ⟨?_, ?_, ?_⟩)
                · exact fun hcontra => CellVal.noConfusion
                    ((herrcells (get_error_url q.1)).1.symm.trans
                      ((htrans cols.error).symm.trans hcontra))
                · exact (htrans cols.title).trans (herrcells (get_error_url q.1)).2.1
                · exact (htrans cols.body).trans (herrcells (get_error_url q.1)).2.2
              · rename_i hs
                split at hpp
                · rename_i hct0
                  cases hpp
                  refine Or.inr (Or.inr ⟨?_, ?_, ?_, ?_⟩)
                  · simp [nonJsonSkip, not_not.mp hs, hct0]
                  · exact (htrans cols.title).trans hT0
                  · exact (htrans cols.body).trans hB0
                  · exact (htrans cols.error).trans hE0
                · by_cases hlen : (first :: rest1).length > 1
                  · rw [if_pos hlen] at hpp
                    cases hpp
                    refine Or.inl ⟨?_, ?_, ?_⟩
                    · exact fun hcontra => CellVal.noConfusion
                        ((hsucccells (pyDictGet first cfg.titleKey)
                          (pyDictGet first cfg.bodyKey)).1.symm.trans
                          ((htrans cols.title).symm.trans hcontra))
                    · exact fun hcontra => CellVal.noConfusion
                        ((hsucccells (pyDictGet first cfg.titleKey)
                          (pyDictGet first cfg.bodyKey)).2.1.symm.trans
                          ((htrans cols.body).symm.trans hcontra))
                    · exact (htrans cols.error).trans
                        (hsucccells (pyDictGet first cfg.titleKey)
                          (pyDictGet first cfg.bodyKey)).2.2
                  · rw [if_neg hlen] at hpp
                    cases hpp
                    refine Or.inl ⟨?_, ?_, ?_⟩
                    · exact fun hcontra => CellVal.noConfusion
                        ((hsucccells (pyDictGet first cfg.titleKey)
                          (pyDictGet first cfg.bodyKey)).1.symm.trans
                          ((htrans cols.title).symm.trans hcontra))
                    · exact fun hcontra => CellVal.noConfusion
                        ((hsucccells (pyDictGet first cfg.titleKey)
                          (pyDictGet first cfg.bodyKey)).2.1.symm.trans
                          ((htrans cols.body).symm.trans hcontra))
                    · exact (htrans cols.error).trans
                        (hsucccells (pyDictGet first cfg.titleKey)
                          (pyDictGet first cfg.bodyKey)).2.2
      · -- q is processed later: one-step frame plus the induction hypothesis
        have hempty1 : ∀ q2 ∈ rest,
            getSheetCell st1.sheet q2.2 cols.title = CellVal.empty ∧
            getSheetCell st1.sheet q2.2 cols.body = CellVal.empty ∧
            getSheetCell st1.sheet q2.2 cols.error = CellVal.empty := by
          intro q2 hq2
          have hne : q2.2 ≠ p.2 := Nat.ne_of_gt (hgt q2 hq2)
          have hfr := fun c => processPair_frame cfg oracle cols st p st1 hpp q2.2 c
            (hrest2 q2 hq2) hp2 hne
          obtain ⟨h1, h2, h3⟩ := hempty q2 (List.mem_cons_of_mem _ hq2)
          exact ⟨(hfr cols.title).trans h1, (hfr cols.body).trans h2,
            (hfr cols.error).trans h3⟩
        exact ih st1 hrest2 (List.pairwise_cons.mp hsorted).2 hempty1 hrun q hqrest

/-- C5: `process_excel` appends each of the headers Title, Body, Error to
the end of the header row only when that header is absent, rewrites the
header row in bold styling only when at least one column was added
(running it on a sheet that already has all three leaves the sheet
entirely unchanged), never duplicates a column, and is idempotent:
re-running on its own output changes nothing and returns the same column
indices. -/
theorem c5_header_setup_idempotent (s s1 : Sheet) (cols : Cols)
    (h : process_excel s = some (s1, cols)) :
    (headerVals s1 = headerVals s
      ++ ((if CellVal.str "Title" ∈ headerVals s then [] else [CellVal.str "Title"])
      ++ ((if CellVal.str "Body" ∈ headerVals s then [] else [CellVal.str "Body"])
      ++ (if CellVal.str "Error" ∈ headerVals s then [] else [CellVal.str "Error"])))) ∧
    ((CellVal.str "Title" ∈ headerVals s ∧ CellVal.str "Body" ∈ headerVals s ∧
      CellVal.str "Error" ∈ headerVals s) → s1 = s) ∧
    ((CellVal.str "Title" ∉ headerVals s ∨ CellVal.str "Body" ∉ headerVals s ∨
      CellVal.str "Error" ∉ headerVals s) → ∀ cell ∈ s1.header, cell.bold = true) ∧
    process_excel s1 = some (s1, cols) := by
  obtain ⟨t, hT⟩ := findIdx1_isSome_of_mem (CellVal.str "Title")
    (newHeaders (headerVals s)) (title_mem_newHeaders _)
  obtain ⟨b, hB⟩ := findIdx1_isSome_of_mem (CellVal.str "Body")
    (newHeaders (headerVals s)) (body_mem_newHeaders _)
  obtain ⟨e, hE⟩ := findIdx1_isSome_of_mem (CellVal.str "Error")
    (newHeaders (headerVals s)) (error_mem_newHeaders _)
  rcases hID : findIdx1 (CellVal.str "ID") (headerVals s) with _ | i
  · simp only [process_excel, hID, hT, hB, hE] at h
    exact Option.noConfusion h
  · simp only [process_excel, hID, hT, hB, hE, Option.some.injEq, Prod.mk.injEq] at h
    obtain ⟨hs1, hcols⟩ := h
    have hnh := newHeaders_eq (headerVals s)
    have hval1 : headerVals s1 = newHeaders (headerVals s) := by
      by_cases hadd : newHeaders (headerVals s) = headerVals s
      · rw [if_pos hadd] at hs1
        rw [← hs1]
        exact hadd.symm
      · rw [if_neg hadd] at hs1
        rw [← hs1]
        simp only [headerVals, List.map_map]
        have hcomp : (Cell.value ∘ fun v => Cell.mk v true) = id := rfl
        rw [hcomp, List.map_id]
    refine ⟨hval1.trans hnh, ?_, ?_, ?_⟩
    · rintro ⟨hT2, hB2, hE2⟩
      have hadd : newHeaders (headerVals s) = headerVals s := by
        rw [hnh]
        simp [hT2, hB2, hE2]
      rw [if_pos hadd] at hs1
      exact hs1.symm
    · intro hmiss
      have hadd : newHeaders (headerVals s) ≠ headerVals s := by
        intro heq
        rcases hmiss with hm | hm | hm
        · exact hm (heq ▸ title_mem_newHeaders (headerVals s))
        · exact hm (heq ▸ body_mem_newHeaders (headerVals s))
        · exact hm (heq ▸ error_mem_newHeaders (headerVals s))
      rw [if_neg hadd] at hs1
      intro cell hc
      rw [← hs1] at hc
      obtain ⟨v, hv2, heq⟩ := List.mem_map.mp hc
      rw [← heq]
    · have hidem : newHeaders (headerVals s1) = headerVals s1 := by
        rw [hval1]
        exact newHeaders_idem (headerVals s)
      have hID1 : findIdx1 (CellVal.str "ID") (headerVals s1) = some i := by
        rw [hval1, hnh]
        exact findIdx1_append_some _ _ _ i hID
      have hT1 : findIdx1 (CellVal.str "Title") (headerVals s1) = some t := by
        rw [hval1]
        exact hT
      have hB1 : findIdx1 (CellVal.str "Body") (headerVals s1) = some b := by
        rw [hval1]
        exact hB
      have hE1 : findIdx1 (CellVal.str "Error") (headerVals s1) = some e := by
        rw [hval1]
        exact hE
      simp only [process_excel, hidem, hID1, hT1, hB1, hE1, eq_self_iff_true, if_true,
        Option.some.injEq, Prod.mk.injEq]
      exact ⟨trivial, hcols⟩

/-- `process_excel s = none` happens exactly when the "ID" header is
missing (the Title/Body/Error lookups always succeed by construction). -/
theorem process_excel_eq_none (s : Sheet) :
    process_excel s = none ↔ findIdx1 (CellVal.str "ID") (headerVals s) = none := by
  obtain ⟨t, hT⟩ := findIdx1_isSome_of_mem (CellVal.str "Title")
    (newHeaders (headerVals s)) (title_mem_newHeaders _)
  obtain ⟨b, hB⟩ := findIdx1_isSome_of_mem (CellVal.str "Body")
    (newHeaders (headerVals s)) (body_mem_newHeaders _)
  obtain ⟨e, hE⟩ := findIdx1_isSome_of_mem (CellVal.str "Error")
    (newHeaders (headerVals s)) (error_mem_newHeaders _)
  rcases hID : findIdx1 (CellVal.str "ID") (headerVals s) with _ | i <;>
    simp [process_excel, hID, hT, hB, hE]

/-- C8 (amended): `sys.exit(1)` is reached exactly on a fatal
configuration error (file missing, invalid format, sheet missing, or no
"ID" header); the process exit status is 0 exactly on normal completion,
including the "no valid IDs" early return; and exit status 1 is produced
either by a configuration error or by a run that aborted on an uncaught
exception — so status 1 is not reserved to configuration errors as the
original claim stated (see the counterexample theorem). -/
theorem c8_exit_codes (cfg : Config) (sheetName : String) (load : LoadResult)
    (oracle : Int → Nat → HttpResult) :
    ((mainRun cfg sheetName load oracle = MainOutcome.exitOne) ↔
      isConfigError sheetName load = true) ∧
    ((mainRun cfg sheetName load oracle).exitCode = 0 ↔
      ∃ st, mainRun cfg sheetName load oracle = MainOutcome.done st) ∧
    ((mainRun cfg sheetName load oracle).exitCode = 1 ↔
      (isConfigError sheetName load = true ∨
        ∃ ex st, mainRun cfg sheetName load oracle = MainOutcome.crash ex st)) := by
  cases load with
  | notFound => simp [mainRun, isConfigError, MainOutcome.exitCode]
  | invalidFile => simp [mainRun, isConfigError, MainOutcome.exitCode]
  | workbook sheets =>
    rcases hlk : lookupSheet sheets sheetName with _ | sh
    · simp [mainRun, isConfigError, hlk, MainOutcome.exitCode]
    · rcases hpe : process_excel sh with _ | pair
      · have hid : findIdx1 (CellVal.str "ID") (headerVals sh) = none :=
          (process_excel_eq_none sh).mp hpe
        simp [mainRun, isConfigError, hlk, hpe, hid, MainOutcome.exitCode]
      · obtain ⟨sheet1, cols⟩ := pair
        have hid : findIdx1 (CellVal.str "ID") (headerVals sh) ≠ none := by
          intro hc
          rw [(process_excel_eq_none sh).mpr hc] at hpe
          exact Option.noConfusion hpe
        rcases hcoll : collectIds cols.id sheet1.rows with _ | ⟨p0, ps⟩
        · simp [mainRun, isConfigError, hlk, hpe, hcoll, hid, MainOutcome.exitCode,
            Option.isNone_iff_eq_none]
        · rcases hrun : processPairs cfg oracle cols (initState sheet1 sh) (p0 :: ps)
            with stf | epair
          · simp [mainRun, isConfigError, hlk, hpe, hcoll, hrun, hid,
              MainOutcome.exitCode, Option.isNone_iff_eq_none]
          · obtain ⟨ex, stx⟩ := epair
            simp [mainRun, isConfigError, hlk, hpe, hcoll, hrun, hid,
              MainOutcome.exitCode, Option.isNone_iff_eq_none]

/-! ## Concrete fixtures for counterexamples and witnesses -/

def exCfg : Config := { typeId := 0, interfaceId := 3, titleKey := "title", bodyKey := "body" }

def exCols : Cols := { id := 1, title := 2, body := 3, error := 4 }

def exHeader : List Cell := [{ value := CellVal.str "ID", bold := false }]

def exSheet : Sheet := { header := exHeader, rows := [[CellVal.str "500"]] }

def exLoad : LoadResult := LoadResult.workbook [("ids", exSheet)]

def exState : LoopState := initState exSheet exSheet

/-- Oracle: every request gets a 200 JSON response whose body is the empty
array. -/
def exOracleEmpty : Int → Nat → HttpResult :=
  fun _ _ => HttpResult.resp 200 "application/json" (JsonBody.arr []) "<endpoint>"

/-- Oracle: every request raises a RequestException. -/
def exOracleNetFail : Int → Nat → HttpResult :=
  fun _ _ => HttpResult.netFail

/-- Oracle: id 500 succeeds with a one-element array, every other id hits
a network failure. -/
def exOracleStale : Int → Nat → HttpResult := fun i _ =>
  if i == 500 then HttpResult.resp 200 "application/json"
    (JsonBody.arr [[("title", "T"), ("body", "B")]]) "<endpoint>?q=500"
  else HttpResult.netFail

/-- Oracle: 500 status with a non-JSON content type. -/
def exOracle500 : Int → Nat → HttpResult :=
  fun _ _ => HttpResult.resp 500 "text/html" JsonBody.invalid "<endpoint>?q=600"

/-- Oracle: 200 status with a non-JSON content type. -/
def exOracleHtml : Int → Nat → HttpResult :=
  fun _ _ => HttpResult.resp 200 "text/html" JsonBody.invalid "<endpoint>"

/-- The loop state at the abort of the empty-array run. -/
def exAbortState : LoopState :=
  { exState with respUrl := some "<endpoint>", errorUrl := some (get_error_url 500) }

/-- The in-memory sheet after the stale-URL run: row 2 enriched, row 3
holding id 500's error-reference URL. -/
def exStaleSheet : Sheet :=
  { header := exHeader,
    rows := [[CellVal.str "500", CellVal.str "T", CellVal.str "B"],
             [CellVal.empty, CellVal.empty, CellVal.empty, CellVal.str "<URL>?id=500"]] }

/-- The sheet as persisted by the save of the successful row 2. -/
def exSavedSheet : Sheet :=
  { header := exHeader,
    rows := [[CellVal.str "500", CellVal.str "T", CellVal.str "B"]] }

/-- The final state of running `exOracleStale` on [(500, 2), (600, 3)]. -/
def exStaleFinal : LoopState :=
  { sheet := exStaleSheet,
    savedFile := exSavedSheet,
    errors := [{ id := 600, row := 3, url := "<endpoint>?q=500" }],
    respUrl := some "<endpoint>?q=500",
    errorUrl := some "<URL>?id=500",
    log := [LogEvent.updatedRow 2 500, LogEvent.requestFailed 600] }

/-- The state after the single successful pair (500, 2). -/
def exSuccState : LoopState :=
  { sheet := exSavedSheet,
    savedFile := exSavedSheet,
    errors := [],
    respUrl := some "<endpoint>?q=500",
    errorUrl := some "<URL>?id=500",
    log := [LogEvent.updatedRow 2 500] }

/-- C2 (code bug, lines 159-163): the `except RequestException` handler
reads `error_url` and `response`, which are assigned only after a
successful `requests.get`.  First conjunct: a network failure on the very
first processed pair aborts the whole batch with an uncaught
UnboundLocalError — no error entry recorded, no Error cell written.
Second conjunct: after an earlier success for id 500, a network failure
for id 600 at row 3 writes id 500's error-reference URL into row 3's
Error cell and records id 500's request URL in the error entry — not
values constructed from id 600 as the claim (and the spec) state. -/
theorem c2_network_failure_bug :
    (processPairs exCfg exOracleNetFail exCols exState [((600 : Int), 2)] =
      Except.error (PyExc.unboundLocal,
        { exState with log := [LogEvent.requestFailed 600] })) ∧
    processPairs exCfg exOracleStale exCols exState [((500 : Int), 2), ((600 : Int), 3)] =
      Except.ok exStaleFinal ∧
    getSheetCell exStaleFinal.sheet 3 exCols.error = CellVal.str (get_error_url 500) ∧
    get_error_url 500 ≠ get_error_url 600 ∧
    exStaleFinal.errors = [{ id := 600, row := 3, url := "<endpoint>?q=500" }] := by
  refine ⟨rfl, rfl, rfl, by decide, rfl⟩

/-- C1 counterexample: a single collected pair (id 500, row 2) answered by
a 200 "application/json" empty-array response.  The run aborts, and after
the run the row has neither Title/Body nor Error populated although the
response content type was JSON — refuting the claim as stated. -/
theorem c1_counterexample_empty_array :
    processPairs exCfg exOracleEmpty exCols exState [((500 : Int), 2)] =
      Except.error (PyExc.indexError, exAbortState) ∧
    getSheetCell exAbortState.sheet 2 exCols.title = CellVal.empty ∧
    getSheetCell exAbortState.sheet 2 exCols.body = CellVal.empty ∧
    getSheetCell exAbortState.sheet 2 exCols.error = CellVal.empty ∧
    nonJsonSkip (exOracleEmpty 500 2) = false := by
  exact ⟨rfl, rfl, rfl, rfl, rfl⟩

/-- C8 counterexample: a well-formed workbook and sheet (no configuration
error), yet the empty-array response aborts the run with an uncaught
IndexError and the process terminates with exit status 1 — so "exit
status 1 exactly when a fatal configuration error occurs" fails here. -/
theorem c8_counterexample_crash_exit :
    (mainRun exCfg "ids" exLoad exOracleEmpty).exitCode = 1 ∧
    isConfigError "ids" exLoad = false ∧
    mainRun exCfg "ids" exLoad exOracleEmpty ≠ MainOutcome.exitOne := by
  refine ⟨rfl, rfl, by decide⟩

/-- C3: ID collection scans the data rows from row 2 onward and returns
exactly the (id, row) pairs whose ID cell parses as an integer in the
closed range [100, 100000] (equal to the spec-side filterMap description),
in strictly increasing row order; rows it does not collect — non-numeric,
unparsable or out-of-range ID cells — are excluded from processing and
never written by the subsequent loop. -/
theorem c3_collect_ids (idCol : Nat) (rows : List (List CellVal)) :
    collectIds idCol rows = collectSpec idCol rows ∧
    List.Pairwise (fun a b : Int × Nat => a.2 < b.2) (collectIds idCol rows) ∧
    (∀ (v : Int) (r : Nat), (v, r) ∈ collectIds idCol rows ↔
      (2 ≤ r ∧ ∃ rowData, rows[r - 2]? = some rowData ∧
        cellToInt (getRowCell rowData idCol) = some v ∧ 100 ≤ v ∧ v ≤ 100000)) ∧
    (∀ (cfg : Config) (oracle : Int → Nat → HttpResult) (cols : Cols)
      (st st' : LoopState),
      processPairs cfg oracle cols st (collectIds idCol rows) = Except.ok st' →
      ∀ r c, 2 ≤ r → r ∉ (collectIds idCol rows).map Prod.snd →
        getSheetCell st'.sheet r c = getSheetCell st.sheet r c) := by
  refine ⟨collectIds_eq_spec idCol rows, collectIdsAux_pairwise idCol rows 2,
    collectIds_mem_iff idCol rows, ?_⟩
  intro cfg oracle cols st st' hrun r c hr hnot
  exact processPairs_frame cfg oracle cols (collectIds idCol rows) st st'
    (collectIds_lb idCol rows) hrun r c hr hnot

/-! ## Witnesses -/

/-- `exSheet` after `process_excel`: all four headers present, all bold. -/
def exSheet1 : Sheet :=
  { header := [{ value := CellVal.str "ID", bold := true },
               { value := CellVal.str "Title", bold := true },
               { value := CellVal.str "Body", bold := true },
               { value := CellVal.str "Error", bold := true }],
    rows := [[CellVal.str "500"]] }

def exRows3 : List (List CellVal) :=
  [[CellVal.str "500"], [CellVal.str "abc"], [CellVal.intv 99]]

/-- Witness for C3 on a concrete sheet: only the parsable, in-range ID 500
at row 2 is collected; "abc" (row 3) and 99 (row 4) are skipped. -/
theorem c3_witness :
    collectIds 1 exRows3 = [((500 : Int), 2)] ∧
    (collectIds 1 exRows3 = collectSpec 1 exRows3 ∧
     List.Pairwise (fun a b : Int × Nat => a.2 < b.2) (collectIds 1 exRows3) ∧
     (∀ (v : Int) (r : Nat), (v, r) ∈ collectIds 1 exRows3 ↔
       (2 ≤ r ∧ ∃ rowData, exRows3[r - 2]? = some rowData ∧
         cellToInt (getRowCell rowData 1) = some v ∧ 100 ≤ v ∧ v ≤ 100000)) ∧
     (∀ (cfg : Config) (oracle : Int → Nat → HttpResult) (cols : Cols)
       (st st' : LoopState),
       processPairs cfg oracle cols st (collectIds 1 exRows3) = Except.ok st' →
       ∀ r c, 2 ≤ r → r ∉ (collectIds 1 exRows3).map Prod.snd →
         getSheetCell st'.sheet r c = getSheetCell st.sheet r c)) :=
  ⟨rfl, c3_collect_ids 1 exRows3⟩

/-- Witness for C1 on a completed run: id 500 (row 2) succeeds, id 600
(row 3) hits a network failure whose handler writes the stale Error URL —
row 2 ends Title/Body-populated, row 3 ends Error-populated. -/
theorem c1_witness :
    processPairs exCfg exOracleStale exCols exState
      [((500 : Int), 2), ((600 : Int), 3)] = Except.ok exStaleFinal ∧
    ∀ p ∈ [((500 : Int), 2), ((600 : Int), 3)],
      (getSheetCell exStaleFinal.sheet p.2 exCols.title ≠ CellVal.empty ∧
       getSheetCell exStaleFinal.sheet p.2 exCols.body ≠ CellVal.empty ∧
       getSheetCell exStaleFinal.sheet p.2 exCols.error = CellVal.empty) ∨
      (getSheetCell exStaleFinal.sheet p.2 exCols.error ≠ CellVal.empty ∧
       getSheetCell exStaleFinal.sheet p.2 exCols.title = CellVal.empty ∧
       getSheetCell exStaleFinal.sheet p.2 exCols.body = CellVal.empty) ∨
      (nonJsonSkip (exOracleStale p.1 p.2) = true ∧
       getSheetCell exStaleFinal.sheet p.2 exCols.title = CellVal.empty ∧
       getSheetCell exStaleFinal.sheet p.2 exCols.body = CellVal.empty ∧
       getSheetCell exStaleFinal.sheet p.2 exCols.error = CellVal.empty) :=
  ⟨rfl, c1_row_outcome_invariant exCfg exOracleStale exCols exState exStaleFinal
    [((500 : Int), 2), ((600 : Int), 3)] (by decide) (by decide) (by decide)
    (by decide) (by decide) (by decide) (by decide) (by decide) (by decide) rfl⟩

/-- Witness for C4: a one-element JSON array response for id 500 writes
Title "T" and Body "B" into row 2, saves the updated sheet, and records no
error. -/
theorem c4_witness :
    exOracleStale 500 2 = HttpResult.resp 200 "application/json"
      (JsonBody.arr [[("title", "T"), ("body", "B")]]) "<endpoint>?q=500" ∧
    strContains "application/json" "application/json" = true ∧
    (∃ st', processPair exCfg exOracleStale exCols exState ((500 : Int), 2) =
        Except.ok st' ∧
      getSheetCell st'.sheet 2 exCols.title = CellVal.str "T" ∧
      getSheetCell st'.sheet 2 exCols.body = CellVal.str "B" ∧
      st'.errors = exState.errors ∧
      st'.savedFile = st'.sheet) := by
  refine ⟨rfl, rfl, ?_⟩
  obtain ⟨st', h1, h2, h3, _, _, h6, h7, _, _, _⟩ :=
    c4_success_writes_first_element exCfg exOracleStale exCols exState ((500 : Int), 2)
      "application/json" [("title", "T"), ("body", "B")] [] "<endpoint>?q=500"
      rfl rfl (by decide) (by decide) (by decide) (by decide)
  exact ⟨st', h1, h2, h3, h6, h7⟩

/-- Witness for C5: on a sheet with only an "ID" header, setup appends the
three columns in bold and a second run is a no-op with the same column
indices. -/
theorem c5_witness :
    process_excel exSheet = some (exSheet1, exCols) ∧
    ((headerVals exSheet1 = headerVals exSheet
      ++ ((if CellVal.str "Title" ∈ headerVals exSheet then [] else [CellVal.str "Title"])
      ++ ((if CellVal.str "Body" ∈ headerVals exSheet then [] else [CellVal.str "Body"])
      ++ (if CellVal.str "Error" ∈ headerVals exSheet then [] else [CellVal.str "Error"])))) ∧
    ((CellVal.str "Title" ∈ headerVals exSheet ∧ CellVal.str "Body" ∈ headerVals exSheet ∧
      CellVal.str "Error" ∈ headerVals exSheet) → exSheet1 = exSheet) ∧
    ((CellVal.str "Title" ∉ headerVals exSheet ∨ CellVal.str "Body" ∉ headerVals exSheet ∨
      CellVal.str "Error" ∉ headerVals exSheet) → ∀ cell ∈ exSheet1.header, cell.bold = true) ∧
    process_excel exSheet1 = some (exSheet1, exCols)) :=
  ⟨rfl, c5_header_setup_idempotent exSheet exSheet1 exCols rfl⟩

/-- Witness for C6: a 500-status response for id 600 at row 2 appends the
error entry with the request URL and writes the id-600 error-reference URL
into the Error cell. -/
theorem c6_witness :
    exOracle500 600 2 = HttpResult.resp 500 "text/html" JsonBody.invalid
      "<endpoint>?q=600" ∧
    ((500 : Nat) ≠ 200) ∧
    processPair exCfg exOracle500 exCols exState ((600 : Int), 2) =
      Except.ok { exState with
        respUrl := some "<endpoint>?q=600",
        errorUrl := some (get_error_url 600),
        errors := update_error exState.errors { id := 600, row := 2, url := "<endpoint>?q=600" },
        sheet := setSheetCell exState.sheet 2 exCols.error (CellVal.str (get_error_url 600)) } :=
  ⟨rfl, by decide, c6_non200_writes_error exCfg exOracle500 exCols exState ((600 : Int), 2)
    500 "text/html" JsonBody.invalid "<endpoint>?q=600" rfl (by decide)⟩

/-- Witness for C7: a 200 text/html response for id 500 leaves sheet,
errors and saved file untouched; only the log and the two locals change. -/
theorem c7_witness :
    exOracleHtml 500 2 = HttpResult.resp 200 "text/html" JsonBody.invalid "<endpoint>" ∧
    strContains "text/html" "application/json" = false ∧
    processPair exCfg exOracleHtml exCols exState ((500 : Int), 2) =
      Except.ok { exState with
        respUrl := some "<endpoint>",
        errorUrl := some (get_error_url 500),
        log := exState.log ++ [LogEvent.nonJson "<endpoint>"] } :=
  ⟨rfl, rfl, c7_nonjson_content_skips_row exCfg exOracleHtml exCols exState ((500 : Int), 2)
    "text/html" JsonBody.invalid "<endpoint>" rfl rfl⟩

/-- Witness for C9: an empty-array 200/JSON response for id 500 aborts the
batch before the pair (600, 3) is processed, leaving sheet and errors
untouched. -/
theorem c9_witness :
    exOracleEmpty 500 2 = HttpResult.resp 200 "application/json" (JsonBody.arr [])
      "<endpoint>" ∧
    strContains "application/json" "application/json" = true ∧
    processPairs exCfg exOracleEmpty exCols exState
      [((500 : Int), 2), ((600 : Int), 3)] =
      Except.error (PyExc.indexError, { exState with
        respUrl := some "<endpoint>", errorUrl := some (get_error_url 500) }) :=
  ⟨rfl, rfl, c9_empty_array_aborts_batch exCfg exOracleEmpty exCols exState
    ((500 : Int), 2) [((600 : Int), 3)] "application/json" "<endpoint>" rfl rfl⟩

/-- Witness for C10: the successful iteration for id 500 saved exactly the
updated sheet, and its Error cell is untouched. -/
theorem c10_witness :
    processPair exCfg exOracleStale exCols exState ((500 : Int), 2) =
      Except.ok exSuccState ∧
    (exSuccState.savedFile ≠ exState.savedFile →
      exSuccState.savedFile = exSuccState.sheet ∧
      ∃ ct first rest url, exOracleStale 500 2 =
        HttpResult.resp 200 ct (JsonBody.arr (first :: rest)) url ∧
        strContains ct "application/json" = true) ∧
    (getSheetCell exSuccState.sheet 2 exCols.error ≠
        getSheetCell exState.sheet 2 exCols.error →
      exSuccState.savedFile = exState.savedFile) := by
  have h := c10_save_only_on_success exCfg exOracleStale exCols exState ((500 : Int), 2)
    exSuccState (by decide) (by decide) (by decide) (by decide) (by decide) (by decide) rfl
  exact ⟨rfl, h.1, h.2⟩

/-- Witness for C8 (amended): a configuration-error-free run that
completes normally has exit status 0, and the exit-code characterisation
holds at this input. -/
theorem c8_witness :
    (mainRun exCfg "ids" exLoad exOracleStale).exitCode = 0 ∧
    ((mainRun exCfg "ids" exLoad exOracleStale = MainOutcome.exitOne) ↔
      isConfigError "ids" exLoad = true) ∧
    ((mainRun exCfg "ids" exLoad exOracleStale).exitCode = 0 ↔
      ∃ st, mainRun exCfg "ids" exLoad exOracleStale = MainOutcome.done st) ∧
    ((mainRun exCfg "ids" exLoad exOracleStale).exitCode = 1 ↔
      (isConfigError "ids" exLoad = true ∨
        ∃ ex st, mainRun exCfg "ids" exLoad exOracleStale = MainOutcome.crash ex st)) := by
  have h := c8_exit_codes exCfg "ids" exLoad exOracleStale
  exact ⟨rfl, h.1, h.2.1, h.2.2⟩

end ContentType
